import Mathlib

/-!
Shallow embedding of the sample-retrieval core of the pyDmdReader library
(module `pyDmdReader/_dmd_reader.py` with its data model from
`pyDmdReader/data_types.py`, `pyDmdReader/_channel_config.py` and
`pyDmdReader/types.py`), together with theorems settling the behavioural
claims about that code.

Modelling conventions:
- Python `int` values are modelled as `Int` (Python integers are unbounded).
- Python `float` values are modelled as `Rat` (exact-rational idealisation of
  the IEEE arithmetic; all claim-relevant arithmetic is modelled symbolically).
- Python `None` is modelled with `Option`.
- Python exceptions are modelled with `Except PyError`; a function whose body
  contains no `raise` and calls no raising function is modelled as total.
- The opaque native DMD library behind `pyDmdReader/_api.py` is not part of
  the repository; fetch calls are modelled as an oracle function
  (`first_sample -> max_samples -> FetchResult`) and, where a claim needs the
  native contract, by an ideal oracle modelled from the spec (see `exactFetch`).
- numpy buffer handling (`np.frombuffer` copies, conditional ctypes buffer
  reallocation) has no observable effect on the returned values and is kept
  only as comments at the corresponding places.
-/

namespace PyDmdReaderSpec

/-- Python `int(x)` applied to a real value truncates toward zero.
All quotients are computed with natural-number division on the (nonnegative)
numerator and denominator, so the definition is executable and unambiguous. -/
def pyInt (q : ℚ) : ℤ :=
  if q < 0 then -(((-q).num.toNat / (-q).den : ℕ) : ℤ)
  else ((q.num.toNat / q.den : ℕ) : ℤ)

/-- `types.SampleType` from `pyDmdReader/types.py`. -/
inductive SampleType where
  | INVALID
  | DOUBLE
  | REDUCED
  | SINT32
  | DOUBLE_VECTOR
  | COMPLEX_VECTOR
deriving DecidableEq, Repr

/-- `types.TimestampFormat` (exactly four values). -/
inductive TimestampFormat where
  | NONE
  | SECONDS_SINCE_START
  | ABSOLUTE_LOCAL_TIME
  | ABSOLUTE_UTC_TIME
deriving DecidableEq, Repr

/-- The Python exception kinds raised by `_dmd_reader.py`, with their message. -/
inductive PyError where
  | keyError : String → PyError
  | typeError : String → PyError
  | runtimeError : String → PyError
  | notImplementedError : String → PyError
  | indexError : String → PyError
  | zeroDivisionError : PyError
deriving DecidableEq, Repr

/-- `data_types.Sweep`: a contiguous run of samples.  `first_sample` and
`last_sample` are native `uint64` indices (unbounded in the Python layer),
the times and the frequency are doubles. -/
structure Sweep where
  first_sample : ℤ
  last_sample : ℤ
  start_time : ℚ
  end_time : ℚ
  sample_frequency : ℚ
deriving DecidableEq, Repr

/-- `Sweep.max_samples` property: `last_sample - first_sample + 1`. -/
def Sweep.max_samples (s : Sweep) : ℤ :=
  s.last_sample - s.first_sample + 1

/-- The slice of `_channel_config.ChannelConfig` used by the read paths. -/
structure ChannelConfig where
  name : String
  sample_rate : ℚ
  raw_sample_type : SampleType
  reduced_sample_type : SampleType
  max_sample_dimension : ℕ
  sweeps : List Sweep
  reduced_sweeps : List Sweep
deriving DecidableEq, Repr

/-- An open recording's channel catalog: `DmdReader.__channels`, a Python dict
keyed by the unique channel id, in insertion order (Python dicts preserve
insertion order, and iteration in `__resolve_channel` follows it). -/
abbrev Channels := List (ℤ × ChannelConfig)

/-- `DmdReader.__get_corrected_sample_count` (`_dmd_reader.py` lines 767-783),
translated statement by statement.  The function body contains no `raise`,
so it is total. -/
def get_corrected_sample_count (sweep : Sweep) (start_sample : ℤ)
    (end_sample : Option ℤ) : ℤ × ℤ :=
  -- start_offset = int(sweep.first_sample - sweep.start_time * sweep.sample_frequency)
  let start_offset : ℤ :=
    pyInt ((sweep.first_sample : ℚ) - sweep.start_time * sweep.sample_frequency)
  -- start_sample = start_sample + start_offset
  let s1 : ℤ := start_sample + start_offset
  -- if end_sample is not None: end_sample = end_sample + start_offset
  let e1 : Option ℤ := end_sample.map (fun e => e + start_offset)
  -- if start_sample < sweep.first_sample: start_sample = sweep.first_sample
  let s2 : ℤ := if s1 < sweep.first_sample then sweep.first_sample else s1
  -- if end_sample is None or end_sample > sweep.last_sample: end_sample = sweep.last_sample
  let e2 : ℤ :=
    match e1 with
    | none => sweep.last_sample
    | some e => if e > sweep.last_sample then sweep.last_sample else e
  -- return start_sample, end_sample - start_sample + 1
  (s2, e2 - s2 + 1)

/-- A caller-supplied channel reference (`Union[str, int]` in the Python
signatures).  `other` stands for any value that is neither a string nor an
integer, which `__resolve_channel` rejects with a `TypeError`. -/
inductive ChRef where
  | id : ℤ → ChRef
  | name : String → ChRef
  | other : ChRef
deriving DecidableEq, Repr

/-- Python truthiness of the `resolved` variable in `__resolve_channel`:
`None` is falsy, and so is the integer `0`. -/
def pyTruthy : Option ℤ → Bool
  | none => false
  | some k => k ≠ 0

/-- The name-scanning loop of `DmdReader.__resolve_channel` (lines 447-456):
iterates over the channel dict in order, raising on a second match, where the
match-already-seen test is Python truthiness of `resolved` (`if resolved:`). -/
def resolveName (nm : String) : List (ℤ × ChannelConfig) → Option ℤ →
    Except PyError ℤ
  | [], resolved =>
    -- if resolved is None: raise KeyError(...); return resolved
    match resolved with
    | none => .error (.keyError
        ("No channel with given name (" ++ nm ++ ") can be found"))
    | some k => .ok k
  | (key, channel) :: rest, resolved =>
    if channel.name = nm then
      if pyTruthy resolved then
        .error (.keyError ("Channel with name (" ++ nm ++ ") is not unique"))
      else
        resolveName nm rest (some key)
    else
      resolveName nm rest resolved

/-- `DmdReader.__resolve_channel` (`_dmd_reader.py` lines 432-458). -/
def resolve_channel (channels : Channels) : ChRef → Except PyError ℤ
  | .id i =>
    -- if channel_id not in self.__channels: raise KeyError(...)
    match channels.lookup i with
    | some _ => .ok i
    | none => .error (.keyError
        ("No channel with id (" ++ toString i ++ ") can be found"))
  | .name nm => resolveName nm channels none
  | .other =>
    .error (.typeError "Channel should be referenced with string-name or int-ids")

/-- Python dict subscript `self.__channels[ch_id]`. -/
def dictGet (channels : Channels) (i : ℤ) : Except PyError ChannelConfig :=
  match channels.lookup i with
  | some ch => .ok ch
  | none => .error (.keyError (toString i))

/-- The exact sample-rate conflict raised by `__gather_usable_channels`. -/
def sampleRateConflict : PyError :=
  .runtimeError "All requested channels need to have the same sample rate"

/-- The loop of `DmdReader.__gather_usable_channels` (lines 387-402), with the
accumulated `used_channels` list and the reference `sample_rate` (initially
`None`) made explicit.  The single-reference case is wrapped into a
one-element list by the caller (lines 383-385). -/
def gatherLoop (channels : Channels) : List ChRef → List ℤ → Option ℚ →
    Except PyError (List ℤ)
  | [], used, _ => .ok used
  | r :: rest, used, rate? =>
    match resolve_channel channels r with
    | .error e => .error e
    | .ok i =>
      match dictGet channels i with
      | .error e => .error e
      | .ok ch =>
        -- if ch_config.raw_sample_type != SampleType.INVALID: used_channels.append(ch_id)
        let used' := if ch.raw_sample_type ≠ SampleType.INVALID
          then used ++ [i] else used
        match rate? with
        | none => gatherLoop channels rest used' (some ch.sample_rate)
        | some r0 =>
          if r0 ≠ ch.sample_rate then .error sampleRateConflict
          else gatherLoop channels rest used' (some r0)

/-- `DmdReader.__gather_usable_channels` (`_dmd_reader.py` lines 382-402). -/
def gather_usable_channels (channels : Channels) (refs : List ChRef) :
    Except PyError (List ℤ) :=
  gatherLoop channels refs [] none

/-- The channel-gathering prefix of `DmdReader.read_array` (lines 202-218):
first `__gather_usable_channels` runs, and only afterwards is sample data
fetched for each gathered channel.  The per-channel fetch is abstracted into
an arbitrary function so that theorems can show the gathering error occurs
for every possible fetch behaviour, i.e. before any data is fetched. -/
def read_array_gathered {Out : Type} (channels : Channels) (refs : List ChRef)
    (fetchChannel : ℤ → Out) : Except PyError (List Out) :=
  match gather_usable_channels channels refs with
  | .error e => .error e
  | .ok used => .ok (used.map fetchChannel)

/-- A reference resolves to a channel configuration: `resolve_channel`
succeeds and the subsequent dict access yields that configuration. -/
def resolvesTo (channels : Channels) (r : ChRef) (ch : ChannelConfig) : Prop :=
  ∃ i, resolve_channel channels r = .ok i ∧ channels.lookup i = some ch

/-- Result of one native block fetch as used by `__get_single_sweep`: the
valid timestamps (`np.frombuffer(..., count=num_valid_samples)`), the valid
values (`count = num_valid_samples * max_sample_dimension`) and the resume
index `next_sample` reported by the native library. -/
structure FetchResult where
  timestamps : List ℚ
  values : List ℚ
  next_sample : ℤ
deriving DecidableEq, Repr

/-- A native fetch oracle: `first_sample` and `max_samples` to the filled
buffers.  The native library is outside the repository, so its behaviour is a
parameter of every read function. -/
def Fetch : Type := ℤ → ℤ → FetchResult

/-- Python `str` of a `SampleType` enum member, as interpolated into the
`NotImplementedError` messages. -/
def SampleType.pyStr : SampleType → String
  | .INVALID => "SampleType.INVALID"
  | .DOUBLE => "SampleType.DOUBLE"
  | .REDUCED => "SampleType.REDUCED"
  | .SINT32 => "SampleType.SINT32"
  | .DOUBLE_VECTOR => "SampleType.DOUBLE_VECTOR"
  | .COMPLEX_VECTOR => "SampleType.COMPLEX_VECTOR"

/-- `DmdReader.__get_single_sweep` (lines 717-765): dispatches on the raw
sample type to one of four native decode calls (all represented by the same
oracle, since the channel's type is fixed) and raises `NotImplementedError`
otherwise.  The same unsupported-type check guards the buffer allocation in
`__init_sample_and_timestamp_arrays` (lines 460-478) with an identical
message, so one check models both. -/
def get_single_sweep (ch : ChannelConfig) (fetch : Fetch) (first maxS : ℤ) :
    Except PyError FetchResult :=
  match ch.raw_sample_type with
  | .DOUBLE => .ok (fetch first maxS)
  | .SINT32 => .ok (fetch first maxS)
  | .DOUBLE_VECTOR => .ok (fetch first maxS)
  | .COMPLEX_VECTOR => .ok (fetch first maxS)
  | t => .error (.notImplementedError
      ("Sampletype " ++ t.pyStr ++ " not supported"))

/-- `block_size = 1000000` in `__get_all_sweeps` (line 485). -/
def blockSize : ℤ := 1000000

/-- `ASYNC_BLOCK_SIZE = 1000000` (`_dmd_reader.py` line 21). -/
def asyncBlockSize : ℤ := 1000000

/-- The inner block loop of `DmdReader.__get_all_sweeps` (lines 494-523) for
one sweep, with explicit fuel for the `while` loop (if the fuel runs out the
model stops the loop with the blocks read so far; all theorems supply enough
fuel).  The conditional ctypes buffer reallocation (lines 504-506) only
manages capacity and is not observable in the returned data.  Returns the
timestamp/value accumulators (the Python code appends blocks to lists and
concatenates at the end, which is the same flat list) and the remaining
sample budget. -/
def allSweepsInner (ch : ChannelConfig) (fetch : Fetch) (s : Sweep) :
    ℕ → ℤ → Option ℤ → List ℚ → List ℚ →
    Except PyError (List ℚ × List ℚ × Option ℤ)
  | 0, _, budget, tsAcc, dAcc => .ok (tsAcc, dAcc, budget)
  | fuel+1, first, budget, tsAcc, dAcc =>
    -- while first_sample <= sweep.last_sample:
    if first ≤ s.last_sample then
      let bs := if s.last_sample - first + 1 ≥ blockSize then blockSize
        else s.last_sample - first + 1
      let bs' := match budget with | none => bs | some b => min bs b
      match get_single_sweep ch fetch first bs' with
      | .error e => .error e
      | .ok r =>
        let tsAcc' := tsAcc ++ r.timestamps
        let dAcc' := dAcc ++ r.values
        -- first_sample = next_sample
        match budget with
        | none => allSweepsInner ch fetch s fuel r.next_sample none tsAcc' dAcc'
        | some b =>
          -- max_samples -= len(raw_timestamps); if max_samples <= 0: break
          let b' := b - r.timestamps.length
          if b' ≤ 0 then .ok (tsAcc', dAcc', some b')
          else allSweepsInner ch fetch s fuel r.next_sample (some b') tsAcc' dAcc'
    else .ok (tsAcc, dAcc, budget)

/-- The sweep loop of `DmdReader.__get_all_sweeps` (lines 487-523). -/
def allSweepsLoop (ch : ChannelConfig) (fetch : Fetch) (fuel : ℕ) :
    List Sweep → Option ℤ → List ℚ → List ℚ →
    Except PyError (List ℚ × List ℚ)
  | [], _, tsAcc, dAcc => .ok (tsAcc, dAcc)
  | s :: rest, budget, tsAcc, dAcc =>
    -- if max_samples == 0: break
    if budget = some 0 then .ok (tsAcc, dAcc)
    else
      match allSweepsInner ch fetch s fuel s.first_sample budget tsAcc dAcc with
      | .error e => .error e
      | .ok (tsAcc', dAcc', budget') =>
        allSweepsLoop ch fetch fuel rest budget' tsAcc' dAcc'

/-- `DmdReader.__get_all_sweeps` (`_dmd_reader.py` lines 481-531). -/
def get_all_sweeps (ch : ChannelConfig) (fetch : Fetch) (budget : Option ℤ)
    (fuel : ℕ) : Except PyError (List ℚ × List ℚ) :=
  allSweepsLoop ch fetch fuel ch.sweeps budget [] []

/-- Index of the first element strictly exceeding `e`, if any. -/
def firstGtIdx (e : ℚ) : List ℚ → Option ℕ
  | [] => none
  | x :: rest => if e < x then some 0 else (firstGtIdx e rest).map (· + 1)

/-- `np.argmax(raw_timestamps > actual_end_time)`: index of the first
timestamp strictly exceeding the bound, and `0` when none does (numpy's
argmax of an all-False array is 0). -/
def argmaxGt (e : ℚ) (l : List ℚ) : ℕ :=
  (firstGtIdx e l).getD 0

/-- The async block `while` loop of `DmdReader.__get_ranged_sweeps`
(lines 582-619) for one async sweep, with fuel for the `while` loop.
`last` is the local variable `last_sample = first_sample + max_sweep_samples`
computed at line 580. -/
def rangedAsyncLoop (ch : ChannelConfig) (fetch : Fetch) (aet : ℚ) (last : ℤ) :
    ℕ → ℤ → Option ℤ → List ℚ → List ℚ →
    Except PyError (List ℚ × List ℚ × Option ℤ)
  | 0, _, budget, tsAcc, dAcc => .ok (tsAcc, dAcc, budget)
  | fuel+1, first, budget, tsAcc, dAcc =>
    -- while first_sample <= last_sample:
    if first ≤ last then
      let bms := if last - first + 1 ≥ asyncBlockSize then asyncBlockSize
        else last - first + 1
      let bms' := match budget with | none => bms | some b => min bms b
      match get_single_sweep ch fetch first bms' with
      | .error e => .error e
      | .ok r =>
        -- if len(raw_timestamps) > 0:
        match r.timestamps.getLast? with
        | none =>
          rangedAsyncLoop ch fetch aet last fuel r.next_sample budget tsAcc dAcc
        | some lastTs =>
          -- keep the whole block when its last timestamp is within range,
          -- otherwise cut at last_valid = np.argmax(raw_timestamps > aet)
          let keepTs := if lastTs ≤ aet then r.timestamps
            else r.timestamps.take (argmaxGt aet r.timestamps)
          let keepVals := if lastTs ≤ aet then r.values
            else r.values.take (argmaxGt aet r.timestamps * ch.max_sample_dimension)
          let num : ℤ := if lastTs ≤ aet then (r.timestamps.length : ℤ)
            else (argmaxGt aet r.timestamps : ℤ)
          let tsAcc' := tsAcc ++ keepTs
          let dAcc' := dAcc ++ keepVals
          match budget with
          | none => rangedAsyncLoop ch fetch aet last fuel r.next_sample none tsAcc' dAcc'
          | some b =>
            -- max_samples -= num_samples; if max_samples <= 0: break
            let b' := b - num
            if b' ≤ 0 then .ok (tsAcc', dAcc', some b')
            else rangedAsyncLoop ch fetch aet last fuel r.next_sample (some b') tsAcc' dAcc'
    else .ok (tsAcc, dAcc, budget)

/-- The sweep loop of `DmdReader.__get_ranged_sweeps` (lines 545-619), over an
explicit sweep list, with `aet` the already-computed `actual_end_time`. -/
def rangedLoop (ch : ChannelConfig) (fetch : Fetch) (st aet : ℚ) (fuel : ℕ) :
    List Sweep → Option ℤ → List ℚ → List ℚ →
    Except PyError (List ℚ × List ℚ)
  | [], _, tsAcc, dAcc => .ok (tsAcc, dAcc)
  | s :: rest, budget, tsAcc, dAcc =>
    -- if max_samples == 0: break
    if budget = some 0 then .ok (tsAcc, dAcc)
    else if s.start_time ≤ aet ∧ s.end_time ≥ st then
      if s.sample_frequency ≠ 0 then
        -- Sync channel
        let ss := pyInt (st * s.sample_frequency)
        let es := pyInt (aet * s.sample_frequency)
        let fc := get_corrected_sample_count s ss (some es)
        let cnt := match budget with | none => fc.2 | some b => min fc.2 b
        match get_single_sweep ch fetch fc.1 cnt with
        | .error e => .error e
        | .ok r =>
          -- max_samples -= len(sweep_timestamps) (no break here: checked at loop head)
          let budget' := budget.map (fun b => b - (r.timestamps.length : ℤ))
          rangedLoop ch fetch st aet fuel rest budget'
            (tsAcc ++ r.timestamps) (dAcc ++ r.values)
      else
        -- Async channel: synthesize the sample frequency; the division by
        -- (sweep.end_time - sweep.start_time) is unguarded in the source and
        -- raises ZeroDivisionError when the sweep has zero duration.
        if s.end_time - s.start_time = 0 then .error .zeroDivisionError
        else
          let f := ((s.max_samples - 1 : ℤ) : ℚ) / (s.end_time - s.start_time)
          let ss := pyInt (st * f)
          let es := pyInt (aet * f)
          let fc := get_corrected_sample_count s ss (some es)
          match rangedAsyncLoop ch fetch aet (fc.1 + fc.2) fuel fc.1 budget tsAcc dAcc with
          | .error e => .error e
          | .ok (tsAcc', dAcc', budget') =>
            rangedLoop ch fetch st aet fuel rest budget' tsAcc' dAcc'
    else
      rangedLoop ch fetch st aet fuel rest budget tsAcc dAcc

/-- `DmdReader.__get_ranged_sweeps` (`_dmd_reader.py` lines 534-627):
computes `actual_end_time` (the last sweep's end time when no end was
requested; `ch_config.sweeps[-1]` raises `IndexError` on an empty list) and
runs the sweep loop. -/
def get_ranged_sweeps (ch : ChannelConfig) (fetch : Fetch) (start_time : ℚ)
    (end_time : Option ℚ) (budget : Option ℤ) (fuel : ℕ) :
    Except PyError (List ℚ × List ℚ) :=
  match end_time with
  | some e => rangedLoop ch fetch start_time e fuel ch.sweeps budget [] []
  | none =>
    match ch.sweeps.getLast? with
    | some s => rangedLoop ch fetch start_time s.end_time fuel ch.sweeps budget [] []
    | none => .error (.indexError "list index out of range")

/-- The per-channel dispatch of `DmdReader.read_dataframe` / `read_array`
(lines 151-154 and 212-215): the all-sweeps path runs exactly when
`start_time == 0.0 and end_time is None`, the ranged path otherwise. -/
def get_channel_data (ch : ChannelConfig) (fetch : Fetch) (start_time : ℚ)
    (end_time : Option ℚ) (budget : Option ℤ) (fuel : ℕ) :
    Except PyError (List ℚ × List ℚ) :=
  if start_time = 0 ∧ end_time = none then get_all_sweeps ch fetch budget fuel
  else get_ranged_sweeps ch fetch start_time end_time budget fuel

/-- Python slice `l[k::4]`: every fourth element starting at offset `k`. -/
def every4 : List ℚ → List ℚ
  | [] => []
  | x :: rest => x :: every4 (rest.drop 3)
termination_by l => l.length
decreasing_by
  simp only [List.length_cons, List.length_drop]
  omega

/-- Python slice `l[k::4]` with explicit start offset. -/
def pySlice4 (k : ℕ) (l : List ℚ) : List ℚ :=
  every4 (l.drop k)

/-- A pandas `DataFrame` as returned by `read_reduced`, reduced to what the
claims observe: the (relative or absolute) timestamp index and the named
columns in insertion order.  Absolute timestamps are modelled as rational
seconds since the epoch, obtained by adding the recording start. -/
structure ReducedFrame where
  index : List ℚ
  columns : List (String × List ℚ)
deriving DecidableEq, Repr

/-- `pd.DataFrame()`: an empty frame with no columns. -/
def emptyFrame : ReducedFrame := { index := [], columns := [] }

/-- A native reduced-block fetch oracle: `first_sample` and
`max_reduced_samples` to the valid timestamps (`count=num_valid_samples`)
and the flattened min/max/avg/rms records (`count=4*num_valid_samples`). -/
def ReducedFetch : Type := ℤ → ℤ → List ℚ × List ℚ

/-- The reduced-sweep loop of `DmdReader.read_reduced` (lines 325-352): one
block fetch per reduced sweep, capped by the remaining `max_samples` budget,
stopping once the budget is exhausted.  The conditional buffer reallocation
(lines 332-335) is capacity management with no observable effect. -/
def reducedLoop (rfetch : ReducedFetch) :
    List Sweep → Option ℤ → List ℚ → List ℚ → List ℚ × List ℚ
  | [], _, ts, dat => (ts, dat)
  | s :: rest, budget, ts, dat =>
    let m := match budget with
      | none => s.max_samples
      | some b => min s.max_samples b
    let blk := rfetch s.first_sample m
    let ts' := ts ++ blk.1
    let dat' := dat ++ blk.2
    match budget with
    | none => reducedLoop rfetch rest none ts' dat'
    | some b =>
      -- max_samples -= num_valid_samples; if max_samples <= 0: break
      let b' := b - (blk.1.length : ℤ)
      if b' ≤ 0 then (ts', dat')
      else reducedLoop rfetch rest (some b') ts' dat'

/-- `DmdReader.read_reduced` (`_dmd_reader.py` lines 306-380).  `start_utc`
and `start_local` are the recording start times used by the absolute
timestamp conversions. -/
def read_reduced (channels : Channels) (rfetch : ReducedFetch) (ref : ChRef)
    (fmt : TimestampFormat) (budget : Option ℤ) (start_utc start_local : ℚ) :
    Except PyError ReducedFrame :=
  match resolve_channel channels ref with
  | .error e => .error e
  | .ok i =>
    match dictGet channels i with
    | .error e => .error e
    | .ok ch =>
      if ch.reduced_sample_type = SampleType.INVALID then
        -- return pd.DataFrame()
        .ok emptyFrame
      else if ch.reduced_sample_type = SampleType.REDUCED then
        let td := reducedLoop rfetch ch.reduced_sweeps budget [] []
        let baseIndex := if fmt = TimestampFormat.NONE then [] else td.1
        let index := match fmt with
          | .ABSOLUTE_UTC_TIME => baseIndex.map (fun x => start_utc + x)
          | .ABSOLUTE_LOCAL_TIME => baseIndex.map (fun x => start_local + x)
          | _ => baseIndex
        .ok { index := index
              columns := [("MIN", pySlice4 0 td.2), ("MAX", pySlice4 1 td.2),
                          ("AVG", pySlice4 2 td.2), ("RMS", pySlice4 3 td.2)] }
      else
        .error (.notImplementedError
          ("Sampletype " ++ ch.reduced_sample_type.pyStr ++
            " not supported for reduced data"))

/-- The integer sample indices `a, a+1, ..., b` (empty when `b < a`). -/
def idxRange (a b : ℤ) : List ℤ :=
  (List.range (b + 1 - a).toNat).map (fun (k : ℕ) => a + (k : ℤ))

/-- Modelled from the spec: the native sample-block fetch (the opaque DMD
library behind `_api.get_samples_and_ts_*_seconds`, which is not part of this
repository).  Per the native-boundary contract, a fetch starting at a valid
index inside a sweep fills the buffers with the requested number of samples
`n` (the readers always clamp their requests to the sweep's remaining
samples), reports `num_valid_samples = n`, and reports `next_sample =
first_sample + n` as the resume index.  `t` and `v` give the recording's
timestamp and value at each absolute sample index. -/
def exactFetch (t v : ℤ → ℚ) : Fetch := fun first maxS =>
  let n := max maxS 0
  { timestamps := (idxRange first (first + n - 1)).map t
    values := (idxRange first (first + n - 1)).map v
    next_sample := first + n }

/-- A minimal channel configuration used for concrete instances. -/
def simpleCh (nm : String) (rate : ℚ) (raw : SampleType) : ChannelConfig :=
  { name := nm, sample_rate := rate, raw_sample_type := raw,
    reduced_sample_type := .INVALID, max_sample_dimension := 1,
    sweeps := [], reduced_sweeps := [] }

/-- The two-sweep fixture of claim C4: sweeps covering seconds [1..2] and
[5..8] at 2 Hz, with acquisition-relative sample numbering 2..4 and 10..16. -/
def gapChannel : ChannelConfig :=
  { name := "A", sample_rate := 2, raw_sample_type := .DOUBLE,
    reduced_sample_type := .INVALID, max_sample_dimension := 1,
    sweeps := [{ first_sample := 2, last_sample := 4, start_time := 1,
                 end_time := 2, sample_frequency := 2 },
               { first_sample := 10, last_sample := 16, start_time := 5,
                 end_time := 8, sample_frequency := 2 }],
    reduced_sweeps := [] }

/-- The recording's timestamp at each absolute sample index of the fixture. -/
def gapTime : ℤ → ℚ := fun i =>
  if i ≤ 4 then 1 + ((i : ℚ) - 2) / 2 else 5 + ((i : ℚ) - 10) / 2

/-- The ideal native fetch for the fixture channel. -/
def gapFetch : Fetch := exactFetch gapTime (fun _ => 0)

/-- Closed form of the corrector: clamped start is a `max`, clamped end is a
`min` (defaulting to `last_sample`), count is the inclusive difference. -/
lemma get_corrected_sample_count_closed (sweep : Sweep) (start_sample : ℤ)
    (end_sample : Option ℤ) :
    get_corrected_sample_count sweep start_sample end_sample =
      (let off := pyInt ((sweep.first_sample : ℚ) -
        sweep.start_time * sweep.sample_frequency)
       let cs := max (start_sample + off) sweep.first_sample
       let ce := match end_sample with
         | none => sweep.last_sample
         | some e => min (e + off) sweep.last_sample
       (cs, ce - cs + 1)) := by
  unfold get_corrected_sample_count
  cases end_sample with
  | none =>
    simp only [Option.map_none', Prod.mk.injEq]
    exact ⟨by omega, by omega⟩
  | some e =>
    simp only [Option.map_some', Prod.mk.injEq]
    exact ⟨by omega, by omega⟩

/-- C1: For every sweep and every requested (start_sample, optional
end_sample), the sample-range corrector returns (corrected_start, count)
computed exactly as: start_offset = int(sweep.first_sample − sweep.start_time
* sweep.sample_frequency); corrected_start = max(start_sample + start_offset,
sweep.first_sample); corrected_end = min(end_sample + start_offset,
sweep.last_sample) if an end was requested, else sweep.last_sample; count =
corrected_end − corrected_start + 1 (inclusive). -/
theorem C1_corrector_formula (sweep : Sweep) (start_sample : ℤ)
    (end_sample : Option ℤ) :
    get_corrected_sample_count sweep start_sample end_sample =
      (let start_offset := pyInt ((sweep.first_sample : ℚ) -
         sweep.start_time * sweep.sample_frequency)
       let corrected_start := max (start_sample + start_offset) sweep.first_sample
       let corrected_end := match end_sample with
         | none => sweep.last_sample
         | some e => min (e + start_offset) sweep.last_sample
       (corrected_start, corrected_end - corrected_start + 1)) :=
  get_corrected_sample_count_closed sweep start_sample end_sample

/-- C7 counterexample: a requested start beyond the sweep's available samples
does not raise: `__get_corrected_sample_count` contains no raise statement
(and the `IndexError`-raising `__check_sweep_number` helper is never called
anywhere in the module), so the corrector returns an ordinary (start, count)
pair — here (10, -5) for a sweep with samples 0..4 and requested start 10. -/
theorem C7_counterexample :
    get_corrected_sample_count
      { first_sample := 0, last_sample := 4, start_time := 0, end_time := 1,
        sample_frequency := 4 } 10 none = (10, -5) := by
  rw [get_corrected_sample_count_closed]
  have h : pyInt (((0:ℤ) : ℚ) - 0 * 4) = 0 := by norm_num [pyInt]
  simp only [h]
  norm_num

/-- C7 amended: when the corrected start exceeds the sweep's last sample, the
corrector does not fail with an Index/Range error; it returns a (start,
count) pair whose count is non-positive. -/
theorem C7_amended_nonpositive_count (sweep : Sweep) (start_sample : ℤ)
    (end_sample : Option ℤ)
    (h : sweep.last_sample <
      (get_corrected_sample_count sweep start_sample end_sample).1) :
    (get_corrected_sample_count sweep start_sample end_sample).2 ≤ 0 := by
  rw [get_corrected_sample_count_closed] at h ⊢
  cases end_sample with
  | none => simp only at h ⊢; omega
  | some e => simp only at h ⊢; omega

/-- Witness for C7 amended at the counterexample input. -/
theorem C7_amended_witness :
    (get_corrected_sample_count
      { first_sample := 0, last_sample := 4, start_time := 0, end_time := 1,
        sample_frequency := 4 } 10 none).2 ≤ 0 :=
  C7_amended_nonpositive_count _ 10 none (by
    rw [get_corrected_sample_count_closed]
    have h : pyInt (((0:ℤ) : ℚ) - 0 * 4) = 0 := by norm_num [pyInt]
    simp only [h]
    norm_num)

/-- Scanning a suffix with no matching name leaves the resolver in its
terminal behaviour: Not-Found for an empty state, success otherwise. -/
lemma resolveName_no_match (nm : String) (l : List (ℤ × ChannelConfig))
    (resolved : Option ℤ) (h : ∀ p ∈ l, p.2.name ≠ nm) :
    resolveName nm l resolved = (match resolved with
      | none => .error (.keyError
          ("No channel with given name (" ++ nm ++ ") can be found"))
      | some k => .ok k) := by
  induction l generalizing resolved with
  | nil => rfl
  | cons p rest ih =>
    obtain ⟨key, ch⟩ := p
    have hne : ch.name ≠ nm := h (key, ch) (List.mem_cons_self _ _)
    simp only [resolveName, if_neg hne]
    exact ih resolved (fun q hq => h q (List.mem_cons_of_mem _ hq))

/-- Scanning a prefix with no matching name does not change the state. -/
lemma resolveName_skip_front (nm : String) (l1 l2 : List (ℤ × ChannelConfig))
    (resolved : Option ℤ) (h : ∀ p ∈ l1, p.2.name ≠ nm) :
    resolveName nm (l1 ++ l2) resolved = resolveName nm l2 resolved := by
  induction l1 generalizing resolved with
  | nil => rfl
  | cons p rest ih =>
    obtain ⟨key, ch⟩ := p
    have hne : ch.name ≠ nm := h (key, ch) (List.mem_cons_self _ _)
    simp only [List.cons_append, resolveName, if_neg hne]
    exact ih resolved (fun q hq => h q (List.mem_cons_of_mem _ hq))

/-- Once a truthy (nonzero) id is held, any further match raises the
ambiguity error. -/
lemma resolveName_ambiguous_of_truthy (nm : String) (k : ℤ) (hk : k ≠ 0)
    (l : List (ℤ × ChannelConfig)) (hex : ∃ p ∈ l, p.2.name = nm) :
    resolveName nm l (some k) =
      .error (.keyError ("Channel with name (" ++ nm ++ ") is not unique")) := by
  induction l with
  | nil => simp at hex
  | cons p rest ih =>
    obtain ⟨key, ch⟩ := p
    by_cases hname : ch.name = nm
    · have htr : pyTruthy (some k) = true := by
        simp [pyTruthy, hk]
      simp only [resolveName, if_pos hname, htr, if_true]
    · simp only [resolveName, if_neg hname]
      apply ih
      rcases hex with ⟨q, hq, hqn⟩
      rcases List.mem_cons.mp hq with h1 | h2
      · subst h1; exact absurd hqn hname
      · exact ⟨q, h2, hqn⟩

/-- The first match with an empty state records the key and keeps scanning. -/
lemma resolveName_first_match (nm : String) (k : ℤ) (ch : ChannelConfig)
    (l : List (ℤ × ChannelConfig)) (hch : ch.name = nm) :
    resolveName nm ((k, ch) :: l) none = resolveName nm l (some k) := by
  simp [resolveName, hch, pyTruthy]

/-- C6 amended: resolution by id behaves as claimed (membership check, else
Not-Found); non-string/non-int references raise a type error; a name with no
match raises Not-Found; a name with exactly one match returns its id; a name
with two or more matches raises the Ambiguous error provided the first
matching channel's id is nonzero — the duplicate check tests Python
truthiness of the held id (`if resolved:`), so a first match with id 0 is
not remembered and the claim's "regardless of which ids they have" fails
(see the counterexample). -/
theorem C6_amended_resolver :
    (∀ (channels : Channels) (i : ℤ) (ch : ChannelConfig),
      channels.lookup i = some ch → resolve_channel channels (.id i) = .ok i) ∧
    (∀ (channels : Channels) (i : ℤ), channels.lookup i = none →
      resolve_channel channels (.id i) = .error (.keyError
        ("No channel with id (" ++ toString i ++ ") can be found"))) ∧
    (∀ channels : Channels, resolve_channel channels .other =
      .error (.typeError "Channel should be referenced with string-name or int-ids")) ∧
    (∀ (nm : String) (channels : Channels),
      (∀ p ∈ channels, p.2.name ≠ nm) →
      resolve_channel channels (.name nm) = .error (.keyError
        ("No channel with given name (" ++ nm ++ ") can be found"))) ∧
    (∀ (nm : String) (l1 l2 : List (ℤ × ChannelConfig)) (k : ℤ)
      (ch : ChannelConfig), ch.name = nm →
      (∀ p ∈ l1, p.2.name ≠ nm) → (∀ p ∈ l2, p.2.name ≠ nm) →
      resolve_channel (l1 ++ (k, ch) :: l2) (.name nm) = .ok k) ∧
    (∀ (nm : String) (l1 l2 : List (ℤ × ChannelConfig)) (k : ℤ)
      (ch : ChannelConfig), ch.name = nm → k ≠ 0 →
      (∀ p ∈ l1, p.2.name ≠ nm) → (∃ p ∈ l2, p.2.name = nm) →
      resolve_channel (l1 ++ (k, ch) :: l2) (.name nm) = .error (.keyError
        ("Channel with name (" ++ nm ++ ") is not unique"))) := by
  refine ⟨?_, ?_, ?_, ?_, ?_, ?_⟩
  · intro channels i ch h
    simp only [resolve_channel, h]
  · intro channels i h
    simp only [resolve_channel, h]
  · intro channels
    rfl
  · intro nm channels h
    simp only [resolve_channel]
    exact resolveName_no_match nm channels none h
  · intro nm l1 l2 k ch hch h1 h2
    simp only [resolve_channel]
    rw [resolveName_skip_front nm l1 _ none h1,
      resolveName_first_match nm k ch l2 hch]
    exact resolveName_no_match nm l2 (some k) h2
  · intro nm l1 l2 k ch hch hk h1 hex
    simp only [resolve_channel]
    rw [resolveName_skip_front nm l1 _ none h1,
      resolveName_first_match nm k ch l2 hch]
    exact resolveName_ambiguous_of_truthy nm k hk l2 hex

/-- C6 counterexample: two channels share the name "A" but the first has id
0; because the duplicate check uses Python truthiness (`if resolved:`), the
resolver silently returns the second id instead of raising Ambiguous. -/
theorem C6_counterexample :
    resolve_channel [((0:ℤ), simpleCh "A" 0 .DOUBLE),
                     ((5:ℤ), simpleCh "A" 0 .DOUBLE)] (.name "A") = .ok 5 := by
  simp [resolve_channel, resolveName, simpleCh, pyTruthy]

/-- Witness for C6 amended: a genuine duplicate (nonzero first id) raises the
ambiguity error. -/
theorem C6_amended_witness :
    resolve_channel [((1:ℤ), simpleCh "A" 0 .DOUBLE),
                     ((5:ℤ), simpleCh "A" 0 .DOUBLE)] (.name "A") =
      .error (.keyError "Channel with name (A) is not unique") :=
  C6_amended_resolver.2.2.2.2.2 "A" [] [((5:ℤ), simpleCh "A" 0 .DOUBLE)] 1
    (simpleCh "A" 0 .DOUBLE) rfl (by norm_num)
    (by intro p hp; simp at hp)
    ⟨((5:ℤ), simpleCh "A" 0 .DOUBLE), by simp, rfl⟩

/-- If every reference resolves and some resolved channel's sample rate
differs from the reference rate held by the loop, gathering raises the
conflict. -/
lemma gatherLoop_conflict (channels : Channels) {refs : List ChRef}
    {cs : List ChannelConfig}
    (hres : List.Forall₂ (resolvesTo channels) refs cs) :
    ∀ (used : List ℤ) (r0 : ℚ), (∃ c ∈ cs, c.sample_rate ≠ r0) →
    gatherLoop channels refs used (some r0) = .error sampleRateConflict := by
  induction hres with
  | nil =>
    intro used r0 hex
    simp at hex
  | @cons r ch rest cs' hrc hrest ih =>
    intro used r0 hex
    obtain ⟨i, hr, hl⟩ := hrc
    simp only [gatherLoop, hr, dictGet, hl]
    by_cases hrate : r0 = ch.sample_rate
    · rw [if_neg (by simp [hrate])]
      apply ih
      rcases hex with ⟨c, hc, hcr⟩
      rcases List.mem_cons.mp hc with h1 | h2
      · subst h1; exact absurd hcr (by simp [hrate])
      · exact ⟨c, h2, hcr⟩
    · rw [if_pos hrate]

/-- C3: For every multi-channel read, if any two resolved requested channels
have different sample_rate values, the read fails with the Conflict error
"All requested channels need to have the same sample rate", and it does so
during channel gathering — the result is this error for every possible
per-channel fetch behaviour, i.e. before any sample data is fetched. -/
theorem C3_sample_rate_conflict {Out : Type} (channels : Channels)
    {refs : List ChRef} {cs : List ChannelConfig}
    (hres : List.Forall₂ (resolvesTo channels) refs cs)
    (hdiff : ∃ c1 ∈ cs, ∃ c2 ∈ cs, c1.sample_rate ≠ c2.sample_rate)
    (fetchChannel : ℤ → Out) :
    read_array_gathered channels refs fetchChannel = .error sampleRateConflict := by
  have hg : gather_usable_channels channels refs = .error sampleRateConflict := by
    cases hres with
    | nil => simp at hdiff
    | @cons r ch rest cs' hrc hrest =>
      obtain ⟨i, hr, hl⟩ := hrc
      simp only [gather_usable_channels, gatherLoop, hr, dictGet, hl]
      apply gatherLoop_conflict channels hrest
      rcases hdiff with ⟨c1, hc1, c2, hc2, hne⟩
      by_cases h1 : c1.sample_rate = ch.sample_rate
      · have h2 : c2.sample_rate ≠ ch.sample_rate := fun h2 => hne (h1.trans h2.symm)
        rcases List.mem_cons.mp hc2 with he | hm
        · subst he; exact absurd rfl h2
        · exact ⟨c2, hm, h2⟩
      · rcases List.mem_cons.mp hc1 with he | hm
        · subst he; exact absurd rfl h1
        · exact ⟨c1, hm, h1⟩
  simp only [read_array_gathered, hg]

/-- Witness for C3: two channels at 10 Hz and 20 Hz; the request errors with
the conflict for an arbitrary concrete fetch function. -/
theorem C3_witness :
    read_array_gathered
      [((1:ℤ), simpleCh "A" 10 .DOUBLE), ((2:ℤ), simpleCh "B" 20 .DOUBLE)]
      [.id 1, .id 2] (fun i => i) = .error sampleRateConflict :=
  @C3_sample_rate_conflict ℤ
    [((1:ℤ), simpleCh "A" 10 .DOUBLE), ((2:ℤ), simpleCh "B" 20 .DOUBLE)]
    [.id 1, .id 2] [simpleCh "A" 10 .DOUBLE, simpleCh "B" 20 .DOUBLE]
    (List.Forall₂.cons ⟨1, rfl, rfl⟩
      (List.Forall₂.cons ⟨2, rfl, rfl⟩ List.Forall₂.nil))
    ⟨simpleCh "A" 10 .DOUBLE, by simp,
     simpleCh "B" 20 .DOUBLE, by simp, by norm_num [simpleCh]⟩
    (fun i => i)

/-- C9: A requested channel whose raw sample type is INVALID is excluded from
the gathered `used_channels` (second conjunct), yet its sample rate still
participates in the equal-sample-rate check: combining it with a valid
channel of a different rate raises the Conflict error (first conjunct), even
though the invalid channel would never be fetched. -/
theorem C9_invalid_still_rate_checked (channels : Channels) (i1 i2 : ℤ)
    (c1 c2 : ChannelConfig)
    (h1 : channels.lookup i1 = some c1) (h2 : channels.lookup i2 = some c2)
    (hinv : c1.raw_sample_type = SampleType.INVALID)
    (hrate : c1.sample_rate ≠ c2.sample_rate) :
    gather_usable_channels channels [.id i1, .id i2] = .error sampleRateConflict ∧
    gather_usable_channels channels [.id i1] = .ok [] := by
  constructor
  · simp [gather_usable_channels, gatherLoop, resolve_channel, dictGet,
      h1, h2, hinv, hrate]
  · simp [gather_usable_channels, gatherLoop, resolve_channel, dictGet,
      h1, hinv]

/-- Witness for C9 at a concrete catalog: an INVALID-typed 10 Hz channel
combined with a valid 20 Hz channel. -/
theorem C9_witness :
    gather_usable_channels
      [((1:ℤ), simpleCh "A" 10 .INVALID), ((2:ℤ), simpleCh "B" 20 .DOUBLE)]
      [.id 1, .id 2] = .error sampleRateConflict ∧
    gather_usable_channels
      [((1:ℤ), simpleCh "A" 10 .INVALID), ((2:ℤ), simpleCh "B" 20 .DOUBLE)]
      [.id 1] = .ok [] :=
  C9_invalid_still_rate_checked _ 1 2 (simpleCh "A" 10 .INVALID)
    (simpleCh "B" 20 .DOUBLE) (by simp [List.lookup]) (by simp [List.lookup])
    rfl (by norm_num [simpleCh])

/-- C8 amended: `read_reduced` dispatches on the reduced sample type as
follows. A channel whose reduced sample type is INVALID yields an empty
frame with no columns (not a Not-Implemented failure, contrary to the claim
— see the counterexample); a channel whose reduced sample type is neither
INVALID nor REDUCED fails with Not-Implemented; a REDUCED channel with zero
reduced sweeps returns an empty 4-column (MIN, MAX, AVG, RMS) table as a
valid, non-error outcome, for every fetch oracle, budget and timestamp
format (no reduced block is ever fetched). -/
theorem C8_amended_read_reduced (channels : Channels) (rfetch : ReducedFetch)
    (ref : ChRef) (fmt : TimestampFormat) (budget : Option ℤ) (su sl : ℚ)
    (i : ℤ) (ch : ChannelConfig)
    (hres : resolve_channel channels ref = .ok i)
    (hlook : channels.lookup i = some ch) :
    (ch.reduced_sample_type = SampleType.INVALID →
      read_reduced channels rfetch ref fmt budget su sl = .ok emptyFrame) ∧
    (ch.reduced_sample_type ≠ SampleType.INVALID →
      ch.reduced_sample_type ≠ SampleType.REDUCED →
      read_reduced channels rfetch ref fmt budget su sl = .error
        (.notImplementedError ("Sampletype " ++ ch.reduced_sample_type.pyStr ++
          " not supported for reduced data"))) ∧
    (ch.reduced_sample_type = SampleType.REDUCED → ch.reduced_sweeps = [] →
      read_reduced channels rfetch ref fmt budget su sl = .ok
        { index := [], columns := [("MIN", []), ("MAX", []),
                                   ("AVG", []), ("RMS", [])] }) := by
  refine ⟨?_, ?_, ?_⟩
  · intro hinv
    simp only [read_reduced, hres, dictGet, hlook, hinv, if_pos]
  · intro hninv hnred
    simp only [read_reduced, hres, dictGet, hlook, if_neg hninv, if_neg hnred]
  · intro hred hsweeps
    simp only [read_reduced, hres, dictGet, hlook, hred, hsweeps]
    rw [if_neg (by simp)]
    simp only [if_pos rfl, reducedLoop, pySlice4, every4, List.drop_nil]
    cases fmt <;> simp [every4]

/-- C8 counterexample: a channel whose reduced sample type is INVALID (not
the reduced-aggregate kind) does not fail with Not-Implemented; `read_reduced`
returns `pd.DataFrame()`, an empty frame with zero columns. -/
theorem C8_counterexample :
    read_reduced [((1:ℤ), simpleCh "A" 10 .DOUBLE)] (fun _ _ => ([], []))
      (.id 1) .SECONDS_SINCE_START none 0 0 = .ok emptyFrame := by
  simp [read_reduced, resolve_channel, dictGet, List.lookup, simpleCh]

/-- Witness for C8 amended: a REDUCED-typed channel with zero reduced sweeps
returns the empty 4-column table. -/
theorem C8_amended_witness :
    read_reduced
      [((1:ℤ), { simpleCh "A" 10 .DOUBLE with reduced_sample_type := .REDUCED })]
      (fun _ _ => ([], [])) (.id 1) .SECONDS_SINCE_START none 0 0 =
      .ok { index := [], columns := [("MIN", []), ("MAX", []),
                                     ("AVG", []), ("RMS", [])] } :=
  (C8_amended_read_reduced
    [((1:ℤ), { simpleCh "A" 10 .DOUBLE with reduced_sample_type := .REDUCED })]
    (fun _ _ => ([], [])) (.id 1) .SECONDS_SINCE_START none 0 0 1
    { simpleCh "A" 10 .DOUBLE with reduced_sample_type := .REDUCED }
    rfl rfl).2.2 rfl rfl

/-- C10: In the ranged-read path, the async-channel synthesized sample
frequency `(sweep.max_samples - 1) / (sweep.end_time - sweep.start_time)` is
an unguarded division: for every async sweep (sample_frequency 0) that
overlaps the requested interval and whose end_time equals its start_time,
the ranged read raises ZeroDivisionError (a plain Python arithmetic error,
not a typed library failure and not an empty result), for every fetch
oracle, budget (other than an exactly exhausted one, which stops before the
sweep) and fuel. -/
theorem C10_async_zero_duration_division (s : Sweep) (ch : ChannelConfig)
    (fetch : Fetch) (st : ℚ) (et : Option ℚ) (budget : Option ℤ) (fuel : ℕ)
    (hsw : ch.sweeps = [s])
    (hasync : s.sample_frequency = 0)
    (hdur : s.end_time = s.start_time)
    (hover : s.start_time ≤ (match et with | some e => e | none => s.end_time) ∧
      st ≤ s.end_time)
    (hb : budget ≠ some 0) :
    get_ranged_sweeps ch fetch st et budget fuel = .error .zeroDivisionError := by
  cases et with
  | some e =>
    simp only [get_ranged_sweeps, hsw, rangedLoop]
    rw [if_neg hb, if_pos ⟨hover.1, hover.2⟩, if_neg (by simp [hasync]),
      if_pos (by rw [hdur]; ring)]
  | none =>
    simp only [get_ranged_sweeps, hsw, List.getLast?_singleton, rangedLoop]
    rw [if_neg hb, if_pos ⟨hover.1, hover.2⟩, if_neg (by simp [hasync]),
      if_pos (by rw [hdur]; ring)]

/-- Witness for C10: a zero-duration async sweep overlapping the request. -/
theorem C10_witness :
    get_ranged_sweeps
      { simpleCh "A" 0 .DOUBLE with
          sweeps := [{ first_sample := 0, last_sample := 9, start_time := 2,
                       end_time := 2, sample_frequency := 0 }] }
      (fun _ _ => { timestamps := [], values := [], next_sample := 0 })
      1 (some 3) none 5 = .error .zeroDivisionError :=
  C10_async_zero_duration_division
    { first_sample := 0, last_sample := 9, start_time := 2, end_time := 2,
      sample_frequency := 0 } _ _ 1 (some 3) none 5 rfl rfl rfl
    (by norm_num) (by simp)

/-- The last element of a list, when present, is a member. -/
lemma getLast?_mem : ∀ (l : List ℚ) (g : ℚ), l.getLast? = some g → g ∈ l
  | [], g, hg => by simp at hg
  | [a], g, hg => by
    simp only [List.getLast?_singleton, Option.some.injEq] at hg
    simp [hg]
  | a :: b :: rest, g, hg => by
    rw [List.getLast?_cons_cons] at hg
    exact List.mem_cons_of_mem a (getLast?_mem (b :: rest) g hg)

/-- In a nondecreasing list the last element bounds every member. -/
lemma sorted_le_getLast : ∀ (l : List ℚ), List.Sorted (· ≤ ·) l →
    ∀ (g : ℚ), l.getLast? = some g → ∀ x ∈ l, x ≤ g
  | [], _, g, hg, x, hx => by simp at hg
  | a :: rest, hs, g, hg, x, hx => by
    rcases List.sorted_cons.mp hs with ⟨ha, hrest⟩
    cases rest with
    | nil =>
      simp only [List.getLast?_singleton, Option.some.injEq] at hg
      simp only [List.mem_singleton] at hx
      exact le_of_eq (hx.trans hg)
    | cons b rest' =>
      rw [List.getLast?_cons_cons] at hg
      rcases List.mem_cons.mp hx with h1 | hx'
      · exact h1 ▸ ha g (getLast?_mem _ g hg)
      · exact sorted_le_getLast (b :: rest') hrest g hg x hx'

/-- If some element exceeds the bound, the first-exceedance search finds an
index. -/
lemma firstGtIdx_isSome : ∀ (e : ℚ) (l : List ℚ), (∃ y ∈ l, e < y) →
    (firstGtIdx e l).isSome = true
  | e, [], hex => by simp at hex
  | e, a :: rest, hex => by
    simp only [firstGtIdx]
    by_cases ha : e < a
    · rw [if_pos ha]; rfl
    · rw [if_neg ha]
      rcases hex with ⟨y, hy, hey⟩
      rcases List.mem_cons.mp hy with h1 | hy'
      · exact absurd (h1 ▸ hey) ha
      · have hsome := firstGtIdx_isSome e rest ⟨y, hy', hey⟩
        cases h : firstGtIdx e rest with
        | none => rw [h] at hsome; simp at hsome
        | some i => simp

/-- Every element before the first exceedance is within the bound, provided
an exceedance exists (the branch condition under which the code cuts). -/
lemma mem_take_argmaxGt : ∀ (e : ℚ) (l : List ℚ), (∃ y ∈ l, e < y) →
    ∀ x ∈ l.take (argmaxGt e l), x ≤ e
  | e, [], hex => by simp at hex
  | e, a :: rest, hex => by
    intro x hx
    by_cases ha : e < a
    · simp [argmaxGt, firstGtIdx, if_pos ha] at hx
    · have hex' : ∃ y ∈ rest, e < y := by
        rcases hex with ⟨y, hy, hey⟩
        rcases List.mem_cons.mp hy with h1 | hy'
        · exact absurd (h1 ▸ hey) ha
        · exact ⟨y, hy', hey⟩
      have hsome := firstGtIdx_isSome e rest hex'
      cases hidx : firstGtIdx e rest with
      | none => rw [hidx] at hsome; simp at hsome
      | some i =>
        have harg : argmaxGt e (a :: rest) = i + 1 := by
          simp [argmaxGt, firstGtIdx, if_neg ha, hidx]
        have hargrest : argmaxGt e rest = i := by simp [argmaxGt, hidx]
        rw [harg, List.take_succ_cons] at hx
        rcases List.mem_cons.mp hx with h1 | hx'
        · exact h1 ▸ not_lt.mp ha
        · exact mem_take_argmaxGt e rest hex' x (hargrest ▸ hx')

/-- A successful dispatch returns exactly the oracle's block. -/
lemma get_single_sweep_ok (ch : ChannelConfig) (fetch : Fetch) (f m : ℤ)
    (r : FetchResult) (h : get_single_sweep ch fetch f m = .ok r) :
    r = fetch f m := by
  unfold get_single_sweep at h
  cases hty : ch.raw_sample_type <;> rw [hty] at h <;> simp at h <;>
    exact h.symm

/-- Every timestamp appended by the async block loop is bounded by the
requested end time, when each fetched block is nondecreasing. -/
lemma rangedAsyncLoop_bound (ch : ChannelConfig) (fetch : Fetch) (e : ℚ)
    (last : ℤ) (hsorted : ∀ f m, List.Sorted (· ≤ ·) (fetch f m).timestamps) :
    ∀ (fuel : ℕ) (first : ℤ) (budget : Option ℤ) (tsAcc dAcc : List ℚ)
      (out : List ℚ × List ℚ × Option ℤ),
    (∀ t ∈ tsAcc, t ≤ e) →
    rangedAsyncLoop ch fetch e last fuel first budget tsAcc dAcc = .ok out →
    ∀ t ∈ out.1, t ≤ e := by
  intro fuel
  induction fuel with
  | zero =>
    intro first budget tsAcc dAcc out hinv hok
    simp only [rangedAsyncLoop, Except.ok.injEq] at hok
    subst hok
    exact hinv
  | succ n ih =>
    intro first budget tsAcc dAcc out hinv hok
    simp only [rangedAsyncLoop] at hok
    by_cases hfl : first ≤ last
    swap
    · rw [if_neg hfl] at hok
      simp only [Except.ok.injEq] at hok
      subst hok
      exact hinv
    rw [if_pos hfl] at hok
    split at hok
    · simp at hok
    next r hgs =>
      have hr := get_single_sweep_ok ch fetch first _ r hgs
      split at hok
      · exact ih _ _ _ _ _ hinv hok
      next lastTs hlast =>
        have hsr : List.Sorted (· ≤ ·) r.timestamps := by
          rw [hr]; exact hsorted first _
        by_cases hle : lastTs ≤ e
        · simp only [if_pos hle] at hok
          have hinv' : ∀ t ∈ tsAcc ++ r.timestamps, t ≤ e := by
            intro t ht
            rcases List.mem_append.mp ht with h1 | h2
            · exact hinv t h1
            · exact (sorted_le_getLast r.timestamps hsr lastTs hlast t h2).trans hle
          split at hok
          · exact ih _ _ _ _ _ hinv' hok
          · split at hok
            · simp only [Except.ok.injEq] at hok
              subst hok
              exact hinv'
            · exact ih _ _ _ _ _ hinv' hok
        · simp only [if_neg hle] at hok
          have hinv' : ∀ t ∈ tsAcc ++ r.timestamps.take (argmaxGt e r.timestamps),
              t ≤ e := by
            intro t ht
            rcases List.mem_append.mp ht with h1 | h2
            · exact hinv t h1
            · exact mem_take_argmaxGt e r.timestamps
                ⟨lastTs, getLast?_mem _ _ hlast, lt_of_not_le hle⟩ t h2
          split at hok
          · exact ih _ _ _ _ _ hinv' hok
          · split at hok
            · simp only [Except.ok.injEq] at hok
              subst hok
              exact hinv'
            · exact ih _ _ _ _ _ hinv' hok

/-- Every timestamp produced by the ranged sweep loop over async-only sweeps
is bounded by the requested end time. -/
lemma rangedLoop_async_bound (ch : ChannelConfig) (fetch : Fetch) (st e : ℚ)
    (fuel : ℕ) (hsorted : ∀ f m, List.Sorted (· ≤ ·) (fetch f m).timestamps) :
    ∀ (sweeps : List Sweep) (budget : Option ℤ) (tsAcc dAcc : List ℚ)
      (res : List ℚ × List ℚ),
    (∀ s ∈ sweeps, s.sample_frequency = 0) →
    (∀ t ∈ tsAcc, t ≤ e) →
    rangedLoop ch fetch st e fuel sweeps budget tsAcc dAcc = .ok res →
    ∀ t ∈ res.1, t ≤ e := by
  intro sweeps
  induction sweeps with
  | nil =>
    intro budget tsAcc dAcc res _ hinv hok
    simp only [rangedLoop, Except.ok.injEq] at hok
    subst hok
    exact hinv
  | cons s rest ih =>
    intro budget tsAcc dAcc res hasync hinv hok
    have hs0 : s.sample_frequency = 0 := hasync s (List.mem_cons_self _ _)
    have hrest : ∀ q ∈ rest, q.sample_frequency = 0 :=
      fun q hq => hasync q (List.mem_cons_of_mem _ hq)
    simp only [rangedLoop] at hok
    by_cases hb : budget = some 0
    · rw [if_pos hb] at hok
      simp only [Except.ok.injEq] at hok
      subst hok
      exact hinv
    rw [if_neg hb] at hok
    by_cases hov : s.start_time ≤ e ∧ s.end_time ≥ st
    swap
    · rw [if_neg hov] at hok
      exact ih _ _ _ _ hrest hinv hok
    rw [if_pos hov, if_neg (by simp [hs0])] at hok
    split at hok
    · simp at hok
    · split at hok
      · simp at hok
      next tsA dA bud hloop =>
        have hts' : ∀ t ∈ tsA, t ≤ e :=
          rangedAsyncLoop_bound ch fetch e _ hsorted fuel _ budget tsAcc dAcc
            (tsA, dA, bud) hinv hloop
        exact ih _ _ _ _ hrest hts' hok

/-- C2: For every asynchronous channel (all sweeps have sample_frequency 0)
and every ranged read with a requested end_time, no sample whose timestamp is
strictly greater than end_time appears in the returned (timestamps, data)
result: each fetched block is either kept whole (when its last timestamp is
within range) or truncated at the first timestamp exceeding end_time.  The
native blocks are assumed nondecreasing in time, the recording invariant. -/
theorem C2_async_no_timestamp_beyond_end (ch : ChannelConfig) (fetch : Fetch)
    (st e : ℚ) (budget : Option ℤ) (fuel : ℕ) (res : List ℚ × List ℚ)
    (hasync : ∀ s ∈ ch.sweeps, s.sample_frequency = 0)
    (hsorted : ∀ f m, List.Sorted (· ≤ ·) (fetch f m).timestamps)
    (hok : get_ranged_sweeps ch fetch st (some e) budget fuel = .ok res) :
    ∀ t ∈ res.1, t ≤ e := by
  simp only [get_ranged_sweeps] at hok
  exact rangedLoop_async_bound ch fetch st e fuel hsorted ch.sweeps budget
    [] [] res hasync (by simp) hok

/-- Witness for C2 at a concrete async channel: the block [0, 1/2, 1, 3/2] is
cut at end_time 1, and the theorem bounds the kept timestamp 1. -/
theorem C2_witness : ((1:ℚ)) ≤ 1 :=
  C2_async_no_timestamp_beyond_end
    { simpleCh "A" 0 .DOUBLE with
        sweeps := [{ first_sample := 0, last_sample := 4, start_time := 0,
                     end_time := 2, sample_frequency := 0 }] }
    (fun _ _ => { timestamps := [0, 1/2, 1, 3/2], values := [10, 11, 12, 13],
                  next_sample := 4 })
    0 1 none 10 ([0, 1/2, 1], [10, 11, 12])
    (by
      intro s hs
      simp only [simpleCh, List.mem_singleton] at hs
      rw [hs])
    (by
      intro f m
      simp [List.sorted_cons]
      norm_num)
    (by
      norm_num [get_ranged_sweeps, rangedLoop, rangedAsyncLoop,
        get_single_sweep, get_corrected_sample_count, pyInt,
        Sweep.max_samples, argmaxGt, firstGtIdx, asyncBlockSize, simpleCh]
      simp)
    1 (by simp)

/-- With an exactly exhausted budget the sweep loop stops immediately. -/
lemma rangedLoop_stop (ch : ChannelConfig) (fetch : Fetch) (st aet : ℚ)
    (fuel : ℕ) :
    ∀ (sweeps : List Sweep) (tsAcc dAcc : List ℚ),
    rangedLoop ch fetch st aet fuel sweeps (some 0) tsAcc dAcc =
      .ok (tsAcc, dAcc)
  | [], tsAcc, dAcc => rfl
  | s :: rest, tsAcc, dAcc => by simp [rangedLoop]

/-- The ranged sweep loop ignores non-overlapping sweeps: it equals the same
loop over the overlap-filtered sweep list. -/
lemma rangedLoop_overlap_filter (ch : ChannelConfig) (fetch : Fetch)
    (st aet : ℚ) (fuel : ℕ) :
    ∀ (sweeps : List Sweep) (budget : Option ℤ) (tsAcc dAcc : List ℚ),
    rangedLoop ch fetch st aet fuel sweeps budget tsAcc dAcc =
      rangedLoop ch fetch st aet fuel
        (sweeps.filter (fun s => decide (s.start_time ≤ aet ∧ s.end_time ≥ st)))
        budget tsAcc dAcc := by
  intro sweeps
  induction sweeps with
  | nil => intro budget tsAcc dAcc; rfl
  | cons s rest ih =>
    intro budget tsAcc dAcc
    by_cases hov : s.start_time ≤ aet ∧ s.end_time ≥ st
    · rw [List.filter_cons_of_pos (by simpa using hov)]
      by_cases hb : budget = some 0
      · subst hb
        rw [rangedLoop_stop, rangedLoop_stop]
      · simp only [rangedLoop, if_neg hb, if_pos hov]
        repeat' first
        | rfl
        | exact ih _ _ _
        | split
    · rw [List.filter_cons_of_neg (by simpa using hov)]
      by_cases hb : budget = some 0
      · subst hb
        rw [rangedLoop_stop, rangedLoop_stop]
      · simp only [rangedLoop, if_neg hb, if_neg hov]
        exact ih budget tsAcc dAcc

/-- C4: Only sweeps satisfying `sweep.start_time <= effective_end_time` and
`sweep.end_time >= start_time` contribute samples — the ranged loop equals
the loop over the overlap-filtered sweep list (first conjunct).  On the
fixture channel with sweeps covering [1..2] and [5..8] seconds, a read with
start_time = 3 returns the series 5, 5.5, ..., 8 — first timestamp 5, last 8
(second conjunct) — and a read with end_time = 1.5 returns the series
[1, 1.5], ending exactly at 1.5 (third conjunct). -/
theorem C4_overlapping_sweeps_only :
    (∀ (ch : ChannelConfig) (fetch : Fetch) (st aet : ℚ) (fuel : ℕ)
       (sweeps : List Sweep) (budget : Option ℤ) (tsAcc dAcc : List ℚ),
      rangedLoop ch fetch st aet fuel sweeps budget tsAcc dAcc =
        rangedLoop ch fetch st aet fuel
          (sweeps.filter
            (fun s => decide (s.start_time ≤ aet ∧ s.end_time ≥ st)))
          budget tsAcc dAcc) ∧
    get_channel_data gapChannel gapFetch 3 none none 10 =
      .ok ([5, 11/2, 6, 13/2, 7, 15/2, 8], [0, 0, 0, 0, 0, 0, 0]) ∧
    get_channel_data gapChannel gapFetch 0 (some (3/2)) none 10 =
      .ok ([1, 3/2], [0, 0]) := by
  refine ⟨rangedLoop_overlap_filter, ?_, ?_⟩
  · norm_num [get_channel_data, get_ranged_sweeps, rangedLoop,
      get_single_sweep, get_corrected_sample_count, pyInt, exactFetch,
      idxRange, gapChannel, gapTime, gapFetch, List.range_succ,
      List.getLast?_cons_cons, List.getLast?_singleton]
    simp [gapTime, List.range_succ, Function.comp]
    try norm_num
  · norm_num [get_channel_data, get_ranged_sweeps, rangedLoop,
      get_single_sweep, get_corrected_sample_count, pyInt, exactFetch,
      idxRange, gapChannel, gapTime, gapFetch, List.range_succ,
      List.getLast?_cons_cons, List.getLast?_singleton]
    simp [gapTime, List.range_succ, Function.comp]
    try norm_num

/-- Splitting an inclusive index range after its first `m` indices. -/
lemma idxRange_split (a b m : ℤ) (h0 : 0 ≤ m) (hm : m ≤ b + 1 - a) :
    idxRange a b = idxRange a (a + m - 1) ++ idxRange (a + m) b := by
  unfold idxRange
  have h1 : (b + 1 - a).toNat = m.toNat + (b + 1 - (a + m)).toNat := by omega
  have h2 : (a + m - 1 + 1 - a).toNat = m.toNat := by omega
  rw [h1, List.range_add, List.map_append, List.map_map, h2]
  congr 1
  apply List.map_congr_left
  intro k hk
  simp only [Function.comp_apply]
  have hc : ((m.toNat + k : ℕ) : ℤ) = m + k := by
    push_cast [Int.toNat_of_nonneg h0]
    ring
  rw [hc]
  ring

/-- An empty index range. -/
lemma idxRange_nil (a b : ℤ) (h : b < a) : idxRange a b = [] := by
  unfold idxRange
  have : (b + 1 - a).toNat = 0 := by omega
  rw [this]
  rfl

/-- The inner block loop of the all-sweeps reader under the ideal native
fetch walks one sweep exactly: blocks of at most `blockSize` samples, each
resuming at the reported `next_sample`, concatenate — without duplicate or
missing index — to the sweep's full inclusive range. -/
lemma allSweepsInner_exact (ch : ChannelConfig) (t v : ℤ → ℚ)
    (hok : ∀ f m, get_single_sweep ch (exactFetch t v) f m =
      .ok (exactFetch t v f m)) (s : Sweep) :
    ∀ (fuel : ℕ) (first : ℤ) (tsAcc dAcc : List ℚ),
    (s.last_sample + 1 - first).toNat ≤ fuel →
    allSweepsInner ch (exactFetch t v) s fuel first none tsAcc dAcc =
      .ok (tsAcc ++ (idxRange first s.last_sample).map t,
           dAcc ++ (idxRange first s.last_sample).map v, none) := by
  intro fuel
  induction fuel with
  | zero =>
    intro first tsAcc dAcc hf
    rw [idxRange_nil first s.last_sample (by omega)]
    simp [allSweepsInner]
  | succ n ih =>
    intro first tsAcc dAcc hf
    by_cases hle : first ≤ s.last_sample
    swap
    · rw [idxRange_nil first s.last_sample (by omega)]
      simp only [allSweepsInner, if_neg hle]
      simp
    · simp only [allSweepsInner, if_pos hle]
      set bs := if s.last_sample - first + 1 ≥ blockSize then blockSize
        else s.last_sample - first + 1 with hbs
      have hbs1 : 1 ≤ bs := by
        rw [hbs]; split
        · norm_num [blockSize]
        · omega
      have hbs2 : bs ≤ s.last_sample + 1 - first := by
        rw [hbs]; split
        · omega
        · omega
      rw [hok]
      simp only [exactFetch]
      have hmax : max bs 0 = bs := max_eq_left (by omega)
      rw [hmax]
      rw [ih (first + bs) (tsAcc ++ (idxRange first (first + bs - 1)).map t)
        (dAcc ++ (idxRange first (first + bs - 1)).map v) (by omega)]
      rw [idxRange_split first s.last_sample bs (by omega) hbs2]
      simp [List.append_assoc]

/-- The sweep loop of the all-sweeps reader under the ideal native fetch
concatenates the per-sweep full ranges in order. -/
lemma allSweepsLoop_exact (ch : ChannelConfig) (t v : ℤ → ℚ)
    (hok : ∀ f m, get_single_sweep ch (exactFetch t v) f m =
      .ok (exactFetch t v f m)) :
    ∀ (sweeps : List Sweep) (fuel : ℕ) (tsAcc dAcc : List ℚ),
    (∀ s ∈ sweeps, (s.last_sample + 1 - s.first_sample).toNat ≤ fuel) →
    allSweepsLoop ch (exactFetch t v) fuel sweeps none tsAcc dAcc =
      .ok (tsAcc ++ (sweeps.map
             (fun s => (idxRange s.first_sample s.last_sample).map t)).flatten,
           dAcc ++ (sweeps.map
             (fun s => (idxRange s.first_sample s.last_sample).map v)).flatten) := by
  intro sweeps
  induction sweeps with
  | nil =>
    intro fuel tsAcc dAcc _
    simp [allSweepsLoop]
  | cons s rest ih =>
    intro fuel tsAcc dAcc h
    simp only [allSweepsLoop]
    rw [if_neg (by simp)]
    simp only [allSweepsInner_exact ch t v hok s fuel s.first_sample tsAcc dAcc
      (h s (List.mem_cons_self _ _))]
    rw [ih fuel _ _ (fun q hq => h q (List.mem_cons_of_mem _ hq))]
    simp [List.append_assoc]

/-- C5: Reading a channel's full range with no bounds (start_time 0,
end_time None) dispatches to the all-sweeps path and, under the ideal native
fetch (each block resumes at the returned next_sample), equals the in-order
concatenation of the per-sweep, per-block fetches over all of the channel's
sweeps: the result contains the timestamp and value of every sample index of
every sweep exactly once, in order — no duplicate and no missing sample at
any sweep or block boundary. -/
theorem C5_full_read_is_sweep_concatenation (ch : ChannelConfig)
    (t v : ℤ → ℚ) (fuel : ℕ)
    (hraw : ch.raw_sample_type = SampleType.DOUBLE)
    (hfuel : ∀ s ∈ ch.sweeps,
      (s.last_sample + 1 - s.first_sample).toNat ≤ fuel) :
    get_channel_data ch (exactFetch t v) 0 none none fuel =
      .ok ((ch.sweeps.map
              (fun s => (idxRange s.first_sample s.last_sample).map t)).flatten,
           (ch.sweeps.map
              (fun s => (idxRange s.first_sample s.last_sample).map v)).flatten) := by
  have hok : ∀ f m, get_single_sweep ch (exactFetch t v) f m =
      .ok (exactFetch t v f m) := by
    intro f m
    simp [get_single_sweep, hraw]
  have h00 : ((0:ℚ) = 0 ∧ (none : Option ℚ) = none) := ⟨rfl, rfl⟩
  simp only [get_channel_data, if_pos h00, get_all_sweeps]
  rw [allSweepsLoop_exact ch t v hok ch.sweeps fuel [] [] hfuel]
  simp

/-- Witness for C5: a channel with sweeps over indices 0..2 and 5..7 reads to
exactly the six samples of both sweeps, in order. -/
theorem C5_witness :
    get_channel_data
      { simpleCh "A" 2 .DOUBLE with
          sweeps := [{ first_sample := 0, last_sample := 2, start_time := 0,
                       end_time := 1, sample_frequency := 2 },
                     { first_sample := 5, last_sample := 7, start_time := 3,
                       end_time := 4, sample_frequency := 2 }] }
      (exactFetch (fun i => (i : ℚ)) (fun i => 2 * (i : ℚ))) 0 none none 10 =
      .ok ([0, 1, 2, 5, 6, 7], [0, 2, 4, 10, 12, 14]) := by
  rw [C5_full_read_is_sweep_concatenation _ _ _ 10 rfl (by
    intro s hs
    simp only [simpleCh, List.mem_cons, List.mem_singleton] at hs
    rcases hs with h | h | h
    · rw [h]; norm_num
    · rw [h]; norm_num
    · simp at h)]
  simp [idxRange, List.range_succ, simpleCh]
  try norm_num

end PyDmdReaderSpec
